import Mathlib

/-!
Verification development for the `phox` photonic-mesh rendering module
(`src/phox/gdssim/simrmphotonicmodule.py`).

The Python source is shallowly embedded below.  Python integers are `Int`
(Python's floor division `//` and modulo `%` by the positive constant `10`
coincide with Lean's Euclidean `/` and `%` on `Int`, which is what we use);
numeric array entries are `ℚ`; complex field entries are pairs `ℚ × ℚ`
(re, im).  External collaborators (matplotlib, shapely, the colormap, the
phoxy geometry generator) are abstracted: an RGBA value is represented by
which constant color / colormap is applied and to which numeric argument,
and a polygon by an opaque identifier.  A Python exception is modelled by
`Option`/`Except` being `none`/`error`.
-/

namespace PhoxSim

/-! ## Section 4.2: polygon index to sub-layer number
Embeds `_mzi_poly_idx_to_layer_num` (simrmphotonicmodule.py:277-290).
Python `(poly_idx - 4) // 10` and `(poly_idx - 4) % 10` are floor division
and floor modulo; for the positive divisor 10 these equal Lean's `Int`
division and modulo used here. -/
def _mzi_poly_idx_to_layer_num (poly_idx : Int) : Int :=
  if poly_idx = 0 then
    0
  else
    if (poly_idx - 4) % 10 ≤ 2 then (poly_idx - 4) / 10 * 4 + 1
    else if (poly_idx - 4) % 10 ≤ 3 then (poly_idx - 4) / 10 * 4 + 1 + 1
    else if (poly_idx - 4) % 10 ≤ 6 then (poly_idx - 4) / 10 * 4 + 1 + 2
    else (poly_idx - 4) / 10 * 4 + 1 + 3

/-- Worded from the spec (§4.2): sub-layer = `4*unit + 1`, plus one more if
`offset == 3`, plus two more if `offset in [4,6]`, plus three more if
`offset in [7,9]` (four sub-bands of width {3,1,3,3}). -/
def subLayerOfSpec (index : Int) : Int :=
  4 * ((index - 4) / 10) + 1 +
    (if (index - 4) % 10 = 3 then 1
     else if 4 ≤ (index - 4) % 10 ∧ (index - 4) % 10 ≤ 6 then 2
     else if 7 ≤ (index - 4) % 10 ∧ (index - 4) % 10 ≤ 9 then 3
     else 0)

/-- The clamp applied before indexing the field tensor
(simrmphotonicmodule.py:114-115 and 221-222):
`if layer > fields.shape[1] - 1: layer = fields.shape[1] - 1`. -/
def clampLayer (layer : Int) (cols : Nat) : Int :=
  if layer > (cols : Int) - 1 then (cols : Int) - 1 else layer

/-! ## Section 4.1: rectangular mesh points
Embeds `_get_rectangular_mesh_points` (simrmphotonicmodule.py:311-314).
`np.zeros((dim - 1, num_layers))` raises `ValueError` on a negative
dimension, modelled by `none`.  The two strided assignments
`checkerboard[::2, ::2] = checkerboard[1::2, 1::2] = 1` set exactly the
cells whose row and column are both even or both odd. -/
def checkerboardVal (p l : Nat) : ℚ :=
  if (p % 2 = 0 ∧ l % 2 = 0) ∨ (p % 2 = 1 ∧ l % 2 = 1) then 1 else 0

/-- Embeds `_get_rectangular_mesh_points`: `np.where(checkerboard == 1)`
scans the `(dim-1) × num_layers` array in row-major (C) order; the
constructor transposes the result into a list of `(p, l)` pairs. -/
def _get_rectangular_mesh_points (dim num_layers : Int) : Option (List (Nat × Nat)) :=
  if dim - 1 < 0 ∨ num_layers < 0 then none
  else some ((List.range (dim - 1).toNat).flatMap fun p =>
    (List.range num_layers.toNat).filterMap fun l =>
      if checkerboardVal p l = 1 then some (p, l) else none)

/-- Worded from the spec (§4.1): the cells `(p, l)` of the
`(num_ports-1) × depth` grid where `p` and `l` have the same parity,
in row-major port-then-layer order. -/
def validPositionsSpec (num_ports depth : Int) : List (Nat × Nat) :=
  (List.range (num_ports - 1).toNat).flatMap fun p =>
    (List.range depth.toNat).filterMap fun l =>
      if p % 2 = l % 2 then some (p, l) else none

/-- C1: for num_ports ≥ 2 and depth ≥ 1, `_get_rectangular_mesh_points`
returns exactly the same-parity cells of the `(num_ports-1) × depth` grid
in row-major port-then-layer order; in particular (4, 4) yields exactly
6 positions. -/
theorem c1_valid_positions_checkerboard :
    (∀ num_ports depth : Int, 2 ≤ num_ports → 1 ≤ depth →
      _get_rectangular_mesh_points num_ports depth =
        some (validPositionsSpec num_ports depth)) ∧
    (∃ l, _get_rectangular_mesh_points 4 4 = some l ∧ l.length = 6) := by
  constructor
  · intro num_ports depth hn hd
    rw [_get_rectangular_mesh_points, validPositionsSpec]
    rw [if_neg (by omega)]
    congr 1
    refine List.flatMap_congr ?_
    intro p _
    refine List.filterMap_congr ?_
    intro l _
    have : checkerboardVal p l = 1 ↔ p % 2 = l % 2 := by
      unfold checkerboardVal
      split
      · simp only [iff_true_intro rfl, true_iff]
        omega
      · rename_i h
        constructor
        · intro h1; exact absurd h1 (by norm_num)
        · intro hp; exact absurd hp (by omega)
    by_cases h : checkerboardVal p l = 1
    · rw [if_pos h, if_pos (this.mp h)]
    · rw [if_neg h, if_neg (fun hp => h (this.mpr hp))]
  · exact ⟨validPositionsSpec 4 4, by decide, by decide⟩

/-- Witness for C1 at num_ports = 4, depth = 4. -/
theorem c1_valid_positions_checkerboard_witness :
    _get_rectangular_mesh_points 4 4 = some (validPositionsSpec 4 4) :=
  c1_valid_positions_checkerboard.1 4 4 (by norm_num) (by norm_num)

/-- C4 counterexample: at num_ports = 0 (a degenerate input, 0 < 2) and
depth = 4, `np.zeros((-1, 4))` raises `ValueError: negative dimensions are
not allowed`, so the function errors instead of returning an empty set. -/
theorem c4_counterexample :
    (0 : Int) < 2 ∧ _get_rectangular_mesh_points 0 4 ≠ some [] ∧
      _get_rectangular_mesh_points 0 4 = none := by
  refine ⟨by norm_num, ?_, by decide⟩
  decide

/-- C4 amended: degenerate inputs with num_ports ≥ 1 and depth ≥ 0
(num_ports = 1, or 0 ≤ depth < 1) yield an empty set and raise no error;
num_ports ≤ 0 or depth < 0 makes `np.zeros` raise on a negative
dimension. -/
theorem c4_degenerate_inputs (num_ports depth : Int)
    (hdeg : num_ports < 2 ∨ depth < 1) (h1 : 1 ≤ num_ports) (h0 : 0 ≤ depth) :
    _get_rectangular_mesh_points num_ports depth = some [] := by
  rw [_get_rectangular_mesh_points, if_neg (by omega)]
  rcases hdeg with h | h
  · have : num_ports = 1 := by omega
    subst this
    simp
  · have : depth = 0 := by omega
    subst this
    simp

/-- Witness for C4 amended, at num_ports = 1, depth = 5. -/
theorem c4_degenerate_inputs_witness :
    _get_rectangular_mesh_points 1 5 = some [] :=
  c4_degenerate_inputs 1 5 (Or.inl (by norm_num)) (by norm_num) (by norm_num)

/-- C5: `subLayerOf(0) = 0`, and for every index > 0 the sub-layer equals
`4*((index-4) div 10) + 1` plus the {offset==3 → +1, offset∈[4,6] → +2,
offset∈[7,9] → +3} banding. -/
theorem c5_sublayer_banding :
    _mzi_poly_idx_to_layer_num 0 = 0 ∧
    ∀ index : Int, 0 < index →
      _mzi_poly_idx_to_layer_num index = subLayerOfSpec index := by
  refine ⟨by decide, ?_⟩
  intro index h
  rw [_mzi_poly_idx_to_layer_num, subLayerOfSpec, if_neg (by omega)]
  have hm := Int.emod_nonneg (index - 4) (by norm_num : (10 : Int) ≠ 0)
  have hm' := Int.emod_lt_of_pos (index - 4) (by norm_num : (0 : Int) < 10)
  split_ifs <;> omega

/-- Witness for C5 at index = 7 (offset 3 band). -/
theorem c5_sublayer_banding_witness :
    _mzi_poly_idx_to_layer_num 7 = subLayerOfSpec 7 :=
  c5_sublayer_banding.2 7 (by norm_num)

/-- C10: all four leading polygon indices 0..3 map to sub-layer 0 — for
index ∈ {1,2,3} the floor division `(index-4) div 10` is `-1` and the
offset `(index-4) mod 10` lies in {7,8,9}, so the formula gives
`(-4+1) + 3 = 0` — and `subLayerOf` is monotonically non-decreasing over
all indices ≥ 0. -/
theorem c10_leading_indices_and_monotone :
    (∀ index : Int, 0 ≤ index → index ≤ 3 →
      _mzi_poly_idx_to_layer_num index = 0) ∧
    (∀ index : Int, 1 ≤ index → index ≤ 3 →
      (index - 4) / 10 = -1 ∧ 7 ≤ (index - 4) % 10 ∧ (index - 4) % 10 ≤ 9) ∧
    (∀ i j : Int, 0 ≤ i → i ≤ j →
      _mzi_poly_idx_to_layer_num i ≤ _mzi_poly_idx_to_layer_num j) := by
  refine ⟨?_, ?_, ?_⟩
  · intro index h0 h3
    interval_cases index <;> decide
  · intro index h1 h3
    interval_cases index <;> refine ⟨by decide, by decide, by decide⟩
  · intro i j hi hij
    rw [_mzi_poly_idx_to_layer_num, _mzi_poly_idx_to_layer_num]
    have hmi := Int.emod_nonneg (i - 4) (by norm_num : (10 : Int) ≠ 0)
    have hmi' := Int.emod_lt_of_pos (i - 4) (by norm_num : (0 : Int) < 10)
    have hmj := Int.emod_nonneg (j - 4) (by norm_num : (10 : Int) ≠ 0)
    have hmj' := Int.emod_lt_of_pos (j - 4) (by norm_num : (0 : Int) < 10)
    split_ifs <;> omega

/-- Witness for C10: index 2 maps to sub-layer 0, and monotonicity at
3 ≤ 7. -/
theorem c10_leading_indices_and_monotone_witness :
    _mzi_poly_idx_to_layer_num 2 = 0 ∧
      _mzi_poly_idx_to_layer_num 3 ≤ _mzi_poly_idx_to_layer_num 7 :=
  ⟨c10_leading_indices_and_monotone.1 2 (by norm_num) (by norm_num),
   c10_leading_indices_and_monotone.2.2 3 7 (by norm_num) (by norm_num)⟩

/-- C6: for a field tensor with at least one sub-layer column, whenever the
computed sub-layer is ≥ the maximum sub-layer index `cols - 1`, the clamped
value equals exactly `cols - 1`, and the clamped value is always a valid
index (`0 ≤ clamped < cols`): the tensor access is never out of bounds. -/
theorem c6_clamp_in_bounds (poly_idx : Nat) (cols : Nat) (hc : 1 ≤ cols) :
    ((cols : Int) - 1 ≤ _mzi_poly_idx_to_layer_num poly_idx →
      clampLayer (_mzi_poly_idx_to_layer_num poly_idx) cols = (cols : Int) - 1) ∧
    0 ≤ clampLayer (_mzi_poly_idx_to_layer_num poly_idx) cols ∧
    clampLayer (_mzi_poly_idx_to_layer_num poly_idx) cols < (cols : Int) := by
  have hnn : 0 ≤ _mzi_poly_idx_to_layer_num poly_idx := by
    rw [_mzi_poly_idx_to_layer_num]
    have h0 : 0 ≤ (poly_idx : Int) := Int.natCast_nonneg poly_idx
    have hm := Int.emod_nonneg ((poly_idx : Int) - 4) (by norm_num : (10 : Int) ≠ 0)
    have hm' := Int.emod_lt_of_pos ((poly_idx : Int) - 4) (by norm_num : (0 : Int) < 10)
    have hd : (10 : Int) * (((poly_idx : Int) - 4) / 10) =
        ((poly_idx : Int) - 4) - ((poly_idx : Int) - 4) % 10 := by
      omega
    split_ifs <;> omega
  rw [clampLayer]
  split_ifs <;> omega

/-- Witness for C6 at poly_idx = 14 (sub-layer 5) and cols = 4. -/
theorem c6_clamp_in_bounds_witness :
    clampLayer (_mzi_poly_idx_to_layer_num 14) 4 = (4 : Int) - 1 :=
  (c6_clamp_in_bounds 14 4 (by norm_num)).1 (by decide)

/-! ## Sections 4.3-4.4: patch builder and frame renderer

The 2D field array passed to `plot_field_propagation` is indexed
`fields[port, sub_layer]`; complex entries are `ℚ × ℚ` pairs. -/

/-- A 2D complex array with its shape; `cols` is `fields.shape[1]`. -/
structure FieldsT where
  rows : Nat
  cols : Nat
  entry : Nat → Nat → ℚ × ℚ

/-- Python indexing semantics for one axis: a negative index counts from the
end (single wrap). -/
def pyIdx (n : Nat) (i : Int) : Nat :=
  (if i < 0 then (n : Int) + i else i).toNat

/-- The entry `fields[r, l]` with Python index semantics on both axes. -/
def fieldAt (f : FieldsT) (r l : Int) : ℚ × ℚ :=
  f.entry (pyIdx f.rows r) (pyIdx f.cols l)

/-- An RGBA color, represented by which constant role color or colormap is
applied and to which numeric argument.  `gammaA v` stands for
`(*GAMMA_COLOR, v / MAX_PHI)`, `thetaA v` for `(*THETA_COLOR, v / MAX_THETA)`,
`phiA v` for `(*PHI_COLOR, v / MAX_PHI)`, and `hotAbs z` for the "hot"
colormap value `to_rgba(np.abs(z))` at the complex entry `z`; the constants
and the colormap are external collaborators. -/
inductive Rgba where
  | gammaA (v : ℚ)
  | thetaA (v : ℚ)
  | phiA (v : ℚ)
  | hotAbs (z : ℚ × ℚ)
deriving DecidableEq

/-- A rendered patch, identified by what geometry it was built from: the
gamma box of a port, the theta/phi box of a mesh point, or one waveguide
sub-polygon (`wvgP id` stands for the translated-and-rotated
`PolygonPatch` of the polygon with identifier `id`). -/
inductive Patch where
  | gammaP (idx : Nat)
  | thetaP (point : Nat × Nat)
  | phiP (point : Nat × Nat)
  | wvgP (poly : Nat)
deriving DecidableEq

/-- An `ax.text` label event emitted by one of the phase-shifter adders. -/
inductive LabelEvt where
  | gammaL (idx : Nat)
  | thetaL (point : Nat × Nat)
  | phiL (point : Nat × Nat)
deriving DecidableEq

/-- The constructor-time configuration of `SimRMPhotonicModule`:
`valid_mesh_points` is the transposed output of
`_get_rectangular_mesh_points`, and `fill_pattern` lists, per waveguide
path, the identifiers of its polygons (external phoxy geometry). -/
structure Module where
  num_ports : Nat
  valid_mesh_points : List (Nat × Nat)
  fill_pattern : List (List Nat)

/-- The mutable rendering state: the `plotted_simulated_fields` flag, the
two parallel patch/color lists, and `num_poly_layers` (unset before the
first build; modelled as 0, and only ever read after a build). -/
structure SimState where
  plotted_simulated_fields : Bool
  simulation_patches : List Patch
  simulation_patches_rgba : List Rgba
  num_poly_layers : Nat
deriving DecidableEq

/-- The state set up by `__init__`: flag false, empty patch lists. -/
def initState : SimState :=
  { plotted_simulated_fields := false
    simulation_patches := []
    simulation_patches_rgba := []
    num_poly_layers := 0 }

/-- Embeds `_add_phase_shift_layer` (simrmphotonicmodule.py:39-61): if
`phase_shift_layer` is `None` nothing happens; otherwise one gamma box per
port is appended with color `(*GAMMA_COLOR, phase_shift_layer[idx]/MAX_PHI)`,
and a label per port when `label_size` is given. -/
def _add_phase_shift_layer (m : Module) (phase_shift_layer : Option (Nat → ℚ))
    (label_size : Option ℚ) (s : SimState) : SimState × List LabelEvt :=
  match phase_shift_layer with
  | none => (s, [])
  | some g =>
      ({ s with
          simulation_patches := s.simulation_patches ++
            (List.range m.num_ports).map Patch.gammaP
          simulation_patches_rgba := s.simulation_patches_rgba ++
            (List.range m.num_ports).map fun idx => Rgba.gammaA (g idx) },
       if label_size.isSome then (List.range m.num_ports).map LabelEvt.gammaL
       else [])

/-- Embeds `_add_simulated_theta_phase_shifts` (py:85-105): one theta box
per valid mesh point with color
`(*THETA_COLOR, theta_checkerboard[p, l]/MAX_THETA)`. -/
def _add_simulated_theta_phase_shifts (m : Module)
    (theta_checkerboard : Option (Nat → Nat → ℚ)) (label_size : Option ℚ)
    (s : SimState) : SimState × List LabelEvt :=
  match theta_checkerboard with
  | none => (s, [])
  | some t =>
      ({ s with
          simulation_patches := s.simulation_patches ++
            m.valid_mesh_points.map Patch.thetaP
          simulation_patches_rgba := s.simulation_patches_rgba ++
            m.valid_mesh_points.map fun point => Rgba.thetaA (t point.1 point.2) },
       if label_size.isSome then m.valid_mesh_points.map LabelEvt.thetaL
       else [])

/-- Embeds `_add_simulated_phi_phase_shifts` (py:62-83): one phi box per
valid mesh point with color `(*PHI_COLOR, phi_checkerboard[p, l]/MAX_PHI)`. -/
def _add_simulated_phi_phase_shifts (m : Module)
    (phi_checkerboard : Option (Nat → Nat → ℚ)) (label_size : Option ℚ)
    (s : SimState) : SimState × List LabelEvt :=
  match phi_checkerboard with
  | none => (s, [])
  | some f =>
      ({ s with
          simulation_patches := s.simulation_patches ++
            m.valid_mesh_points.map Patch.phiP
          simulation_patches_rgba := s.simulation_patches_rgba ++
            m.valid_mesh_points.map fun point => Rgba.phiA (f point.1 point.2) },
       if label_size.isSome then m.valid_mesh_points.map LabelEvt.phiL
       else [])

/-- The waveguide color computed at (py:113-115, 121-123) and again at
(py:220-224): clamp the sub-layer of the polygon index and apply the "hot"
colormap to `np.abs(fields[num_ports - 1 - wvg_idx, layer])`. -/
def wvgColor (m : Module) (fields : FieldsT) (wvg_idx poly_idx : Nat) : Rgba :=
  Rgba.hotAbs (fieldAt fields ((m.num_ports : Int) - 1 - (wvg_idx : Int))
    (clampLayer (_mzi_poly_idx_to_layer_num (poly_idx : Int)) fields.cols))

/-- Embeds `_construct_mesh_from_fields` (py:107-123): for each waveguide
path (enumerated), set `num_poly_layers` to its polygon count, then for
each polygon of the reversed path append the waveguide patch and its
field-driven color. -/
def _construct_mesh_from_fields (m : Module) (fields : FieldsT)
    (s : SimState) : SimState :=
  m.fill_pattern.enum.foldl
    (fun st ip =>
      ip.2.reverse.enum.foldl
        (fun st2 kp =>
          { st2 with
              simulation_patches := st2.simulation_patches ++ [Patch.wvgP kp.2]
              simulation_patches_rgba := st2.simulation_patches_rgba ++
                [wvgColor m fields ip.1 kp.1] })
        { st with num_poly_layers := ip.2.length })
    s

/-- Embeds `plot_field_propagation` (py:187-226).  The full-build branch
runs when the flag is unset or `replot` is true; the incremental branch
rebuilds only `simulation_patches_rgba` and subscripts the optional arrays
unconditionally, so a `None` array raises there (`none`) as soon as its
loop body runs. -/
def plot_field_propagation (m : Module) (fields : FieldsT)
    (theta_checkerboard phi_checkerboard : Option (Nat → Nat → ℚ))
    (phase_shift_layer : Option (Nat → ℚ)) (replot : Bool)
    (label_size : Option ℚ) (s : SimState) : Option (SimState × List LabelEvt) :=
  if !s.plotted_simulated_fields || replot then
    let r1 := _add_phase_shift_layer m phase_shift_layer label_size s
    let r2 := _add_simulated_theta_phase_shifts m theta_checkerboard label_size r1.1
    let r3 := _add_simulated_phi_phase_shifts m phi_checkerboard label_size r2.1
    let s4 := _construct_mesh_from_fields m fields r3.1
    some ({ s4 with plotted_simulated_fields := true }, r1.2 ++ r2.2 ++ r3.2)
  else do
    let gs ← (List.range m.num_ports).mapM fun idx =>
      phase_shift_layer.map fun g => Rgba.gammaA (g idx)
    let ts ← m.valid_mesh_points.mapM fun point =>
      theta_checkerboard.map fun t => Rgba.thetaA (t point.1 point.2)
    let ps ← m.valid_mesh_points.mapM fun point =>
      phi_checkerboard.map fun f => Rgba.phiA (f point.1 point.2)
    let ws := (List.range m.num_ports).flatMap fun wvg_idx =>
      (List.range s.num_poly_layers).map fun k => wvgColor m fields wvg_idx k
    some ({ s with simulation_patches_rgba := gs ++ ts ++ ps ++ ws }, [])

/-! ## Characterization of the waveguide construction fold -/

theorem enum_eq_enumFrom {α : Type} (l : List α) : l.enum = List.enumFrom 0 l :=
  rfl

theorem construct_inner (m : Module) (fields : FieldsT) (i : Nat)
    (lst : List Nat) (j : Nat) (s : SimState) :
    List.foldl
      (fun st2 kp =>
        { st2 with
            simulation_patches := st2.simulation_patches ++ [Patch.wvgP kp.2]
            simulation_patches_rgba := st2.simulation_patches_rgba ++
              [wvgColor m fields i kp.1] })
      s (List.enumFrom j lst) =
    { s with
        simulation_patches := s.simulation_patches ++ lst.map Patch.wvgP
        simulation_patches_rgba := s.simulation_patches_rgba ++
          (List.range' j lst.length).map (wvgColor m fields i) } := by
  induction lst generalizing j s with
  | nil => simp
  | cons a tl ih =>
    simp only [List.enumFrom, List.foldl_cons, List.map_cons, List.length_cons]
    rw [ih]
    rw [List.range'_succ]
    simp [List.append_assoc]

theorem getLastLenD_cons (p : List Nat) (tl : List (List Nat)) (d : Nat) :
    (((p :: tl).getLast?).map List.length).getD d =
      ((tl.getLast?).map List.length).getD p.length := by
  cases tl with
  | nil => simp
  | cons q tl2 =>
    rw [List.getLast?_cons_cons]
    cases h : (q :: tl2).getLast? with
    | none => simp at h
    | some a => simp [h]

theorem construct_fold_spec (m : Module) (fields : FieldsT)
    (pattern : List (List Nat)) (j : Nat) (s : SimState) :
    List.foldl
      (fun st ip =>
        ip.2.reverse.enum.foldl
          (fun st2 kp =>
            { st2 with
                simulation_patches := st2.simulation_patches ++ [Patch.wvgP kp.2]
                simulation_patches_rgba := st2.simulation_patches_rgba ++
                  [wvgColor m fields ip.1 kp.1] })
          { st with num_poly_layers := ip.2.length })
      s (List.enumFrom j pattern) =
    { plotted_simulated_fields := s.plotted_simulated_fields
      simulation_patches := s.simulation_patches ++
        pattern.flatMap fun path => path.reverse.map Patch.wvgP
      simulation_patches_rgba := s.simulation_patches_rgba ++
        (List.enumFrom j pattern).flatMap fun ip =>
          (List.range ip.2.length).map (wvgColor m fields ip.1)
      num_poly_layers := ((pattern.getLast?).map List.length).getD s.num_poly_layers } := by
  induction pattern generalizing j s with
  | nil => simp
  | cons p tl ih =>
    simp only [List.enumFrom, List.foldl_cons]
    rw [enum_eq_enumFrom, construct_inner, ih]
    rw [getLastLenD_cons]
    simp only [List.flatMap_cons, List.enumFrom, List.flatMap]
    simp [List.append_assoc, List.range_eq_range']

/-- C9: `_construct_mesh_from_fields` appends, per waveguide path, its
sub-polygons in reverse polygon order, and pairs the k-th appended patch of
path `wvg_idx` with the "hot" colormap applied to the magnitude of the
complex field entry at row `num_ports - 1 - wvg_idx` and column equal to
the clamped sub-layer of polygon index k. -/
theorem c9_waveguide_colors (m : Module) (fields : FieldsT) (s : SimState) :
    (_construct_mesh_from_fields m fields s).simulation_patches =
      s.simulation_patches ++
        (m.fill_pattern.flatMap fun path => path.reverse.map Patch.wvgP) ∧
    (_construct_mesh_from_fields m fields s).simulation_patches_rgba =
      s.simulation_patches_rgba ++
        (m.fill_pattern.enum.flatMap fun ip =>
          (List.range ip.2.length).map fun (k : Nat) =>
            Rgba.hotAbs (fieldAt fields ((m.num_ports : Int) - 1 - (ip.1 : Int))
              (clampLayer (_mzi_poly_idx_to_layer_num (k : Int)) fields.cols))) := by
  rw [_construct_mesh_from_fields, enum_eq_enumFrom, construct_fold_spec]
  exact ⟨rfl, rfl⟩

/-! ## Full build versus incremental recolor -/

theorem construct_spec (m : Module) (fields : FieldsT) (s : SimState) :
    _construct_mesh_from_fields m fields s =
    { plotted_simulated_fields := s.plotted_simulated_fields
      simulation_patches := s.simulation_patches ++
        (m.fill_pattern.flatMap fun path => path.reverse.map Patch.wvgP)
      simulation_patches_rgba := s.simulation_patches_rgba ++
        ((List.enumFrom 0 m.fill_pattern).flatMap fun ip =>
          (List.range ip.2.length).map (wvgColor m fields ip.1))
      num_poly_layers :=
        ((m.fill_pattern.getLast?).map List.length).getD s.num_poly_layers } := by
  rw [_construct_mesh_from_fields, enum_eq_enumFrom, construct_fold_spec]

theorem mapM_option_some {α β : Type} (l : List α) (h : α → β) :
    l.mapM (fun x => some (h x)) = some (l.map h) := by
  induction l with
  | nil => rfl
  | cons a tl ih => rw [List.mapM_cons, ih]; rfl

theorem mapM_option_none_cons {α β : Type} (h : α → Option β) (a : α)
    (l : List α) (ha : h a = none) : (a :: l).mapM h = none := by
  rw [List.mapM_cons, ha]
  rfl

theorem flatMap_enumFrom_uniform {α : Type} (f : Nat → Nat → α)
    (pattern : List (List Nat)) (k j : Nat)
    (hu : ∀ path ∈ pattern, path.length = k) :
    (List.enumFrom j pattern).flatMap
        (fun ip => (List.range ip.2.length).map (f ip.1)) =
      (List.range' j pattern.length).flatMap fun i => (List.range k).map (f i) := by
  induction pattern generalizing j with
  | nil => simp
  | cons p tl ih =>
    simp only [List.enumFrom, List.flatMap_cons, List.length_cons, List.range'_succ]
    rw [hu p (by simp), ih (j + 1) fun q hq => hu q (by simp [hq])]

/-- The full-build branch of `plot_field_propagation` with all three
optional arrays present: it appends, in order, the gamma, theta, phi and
waveguide patches and colors, emits labels iff `label_size` is given, sets
the flag, and records the last path's polygon count. -/
theorem full_build_spec (m : Module) (fields : FieldsT)
    (t f : Nat → Nat → ℚ) (g : Nat → ℚ) (ls : Option ℚ) (s : SimState) :
    plot_field_propagation m fields (some t) (some f) (some g) true ls s =
      some
        ({ plotted_simulated_fields := true
           simulation_patches := s.simulation_patches ++
             ((List.range m.num_ports).map Patch.gammaP ++
              m.valid_mesh_points.map Patch.thetaP ++
              m.valid_mesh_points.map Patch.phiP ++
              (m.fill_pattern.flatMap fun path => path.reverse.map Patch.wvgP))
           simulation_patches_rgba := s.simulation_patches_rgba ++
             (((List.range m.num_ports).map fun idx => Rgba.gammaA (g idx)) ++
              (m.valid_mesh_points.map fun point => Rgba.thetaA (t point.1 point.2)) ++
              (m.valid_mesh_points.map fun point => Rgba.phiA (f point.1 point.2)) ++
              ((List.enumFrom 0 m.fill_pattern).flatMap fun ip =>
                (List.range ip.2.length).map (wvgColor m fields ip.1)))
           num_poly_layers :=
             ((m.fill_pattern.getLast?).map List.length).getD s.num_poly_layers },
         ((if ls.isSome then (List.range m.num_ports).map LabelEvt.gammaL else []) ++
          (if ls.isSome then m.valid_mesh_points.map LabelEvt.thetaL else []) ++
          (if ls.isSome then m.valid_mesh_points.map LabelEvt.phiL else []))) := by
  rw [plot_field_propagation]
  simp only [Bool.or_true, if_true, _add_phase_shift_layer,
    _add_simulated_theta_phase_shifts, _add_simulated_phi_phase_shifts,
    construct_spec]
  simp [List.append_assoc]

/-- The incremental branch of `plot_field_propagation` with all three
optional arrays present: it replaces `simulation_patches_rgba` by the
gamma, theta, phi and per-port-per-sub-layer waveguide colors, touching
nothing else and emitting no labels. -/
theorem incremental_spec (m : Module) (fields : FieldsT)
    (t f : Nat → Nat → ℚ) (g : Nat → ℚ) (ls : Option ℚ) (s : SimState)
    (hp : s.plotted_simulated_fields = true) :
    plot_field_propagation m fields (some t) (some f) (some g) false ls s =
      some
        ({ s with simulation_patches_rgba :=
            ((List.range m.num_ports).map fun idx => Rgba.gammaA (g idx)) ++
            (m.valid_mesh_points.map fun point => Rgba.thetaA (t point.1 point.2)) ++
            (m.valid_mesh_points.map fun point => Rgba.phiA (f point.1 point.2)) ++
            ((List.range m.num_ports).flatMap fun wvg_idx =>
              (List.range s.num_poly_layers).map fun k =>
                wvgColor m fields wvg_idx k) },
         []) := by
  rw [plot_field_propagation, hp]
  simp only [Bool.not_true, Bool.false_or, if_false, Option.map_some']
  simp only [mapM_option_some]
  simp [List.append_assoc]

/-- Witness state equality helper for C2: the waveguide color block of the
incremental pass equals that of the full build when the geometry has one
path per port, all of the same polygon count. -/
theorem wvg_block_eq (m : Module) (fields : FieldsT)
    (hfp : m.fill_pattern.length = m.num_ports)
    (hu : ∀ path1 ∈ m.fill_pattern, ∀ path2 ∈ m.fill_pattern,
      path1.length = path2.length) :
    ((List.range m.num_ports).flatMap fun wvg_idx =>
      (List.range (((m.fill_pattern.getLast?).map List.length).getD 0)).map
        fun k => wvgColor m fields wvg_idx k) =
    ((List.enumFrom 0 m.fill_pattern).flatMap fun ip =>
      (List.range ip.2.length).map (wvgColor m fields ip.1)) := by
  rcases hpat : m.fill_pattern with _ | ⟨p, tl⟩
  · rw [hpat] at hfp
    simp [← hfp]
  · have hne : m.fill_pattern ≠ [] := by rw [hpat]; simp
    have hlast := List.getLast?_eq_getLast_of_ne_nil hne
    have hmem : m.fill_pattern.getLast hne ∈ m.fill_pattern :=
      List.getLast_mem hne
    rw [← hpat, hlast]
    rw [flatMap_enumFrom_uniform (wvgColor m fields) m.fill_pattern
      ((m.fill_pattern.getLast hne).length) 0
      (fun q hq => hu q hq (m.fill_pattern.getLast hne) hmem)]
    rw [hfp, ← List.range_eq_range']
    simp

/-- C2: from a fresh initial full build (replot = true) with all input
arrays supplied, a subsequent incremental call (replot = false) with the
same arrays succeeds and produces exactly the same color sequence — gamma
entries per port, then theta entries per valid mesh position, then phi
entries per valid mesh position, then one waveguide entry per port per
sub-polygon — and a second incremental call yields the identical sequence
again.  The hypotheses record the external geometry contract: one
waveguide path per port, every path with the same polygon count. -/
theorem c2_recolor_invariant (m : Module) (fields : FieldsT)
    (t f : Nat → Nat → ℚ) (g : Nat → ℚ) (ls ls' : Option ℚ)
    (hfp : m.fill_pattern.length = m.num_ports)
    (hu : ∀ path1 ∈ m.fill_pattern, ∀ path2 ∈ m.fill_pattern,
      path1.length = path2.length) :
    ∃ s1 lb1 s2 s3,
      plot_field_propagation m fields (some t) (some f) (some g) true ls
          initState = some (s1, lb1) ∧
      plot_field_propagation m fields (some t) (some f) (some g) false ls'
          s1 = some (s2, []) ∧
      plot_field_propagation m fields (some t) (some f) (some g) false ls'
          s2 = some (s3, []) ∧
      s1.simulation_patches_rgba =
        ((List.range m.num_ports).map fun idx => Rgba.gammaA (g idx)) ++
        (m.valid_mesh_points.map fun point => Rgba.thetaA (t point.1 point.2)) ++
        (m.valid_mesh_points.map fun point => Rgba.phiA (f point.1 point.2)) ++
        ((List.enumFrom 0 m.fill_pattern).flatMap fun ip =>
          (List.range ip.2.length).map (wvgColor m fields ip.1)) ∧
      s2.simulation_patches_rgba = s1.simulation_patches_rgba ∧
      s3.simulation_patches_rgba = s2.simulation_patches_rgba := by
  refine ⟨_, _, _, _, full_build_spec m fields t f g ls initState,
    incremental_spec m fields t f g ls' _ rfl,
    incremental_spec m fields t f g ls' _ rfl, ?_, ?_, ?_⟩
  · simp [initState, List.append_assoc]
  · simp only [initState]
    rw [wvg_block_eq m fields hfp hu]
    simp [List.append_assoc]
  · rfl

/-! ## Optional arguments (C8) -/

/-- C8 counterexample: a full build with all arrays present followed by an
incremental call that omits `phase_shift_layer` propagates an error
(`phase_shift_layer[idx]` on `None` raises `TypeError`); so omitting an
optional array is not silently skipped on the incremental-recolor path. -/
theorem c8_counterexample :
    plot_field_propagation ⟨1, [], [[0]]⟩ ⟨1, 1, fun _ _ => (0, 0)⟩
        (some fun _ _ => 0) (some fun _ _ => 0) (some fun _ => 0) true none
        initState =
      some (⟨true, [Patch.gammaP 0, Patch.wvgP 0],
             [Rgba.gammaA 0, Rgba.hotAbs (0, 0)], 1⟩, []) ∧
    plot_field_propagation ⟨1, [], [[0]]⟩ ⟨1, 1, fun _ _ => (0, 0)⟩
        (some fun _ _ => 0) (some fun _ _ => 0) none false none
        ⟨true, [Patch.gammaP 0, Patch.wvgP 0],
         [Rgba.gammaA 0, Rgba.hotAbs (0, 0)], 1⟩ = none := by
  exact ⟨rfl, rfl⟩

/-- C8 amended: on the full-build path every optional argument may be
omitted — the call never errors, omitting `label_size` skips all labels,
omitting all three arrays adds only the waveguide patch colors, and
omitting any single one of `phase_shift_layer`, `theta_checkerboard` or
`phi_checkerboard` skips exactly that patch kind's colors.  On the
incremental-recolor path the optional arrays are required: with all three
present the call never errors, but an omitted `phase_shift_layer` errors
as soon as there is a port, and an omitted `theta_checkerboard` or
`phi_checkerboard` errors as soon as there is a valid mesh position. -/
theorem c8_optional_arguments :
    (∀ (m : Module) (fields : FieldsT) tc pc psl (ls : Option ℚ) s,
      (plot_field_propagation m fields tc pc psl true ls s).isSome = true) ∧
    (∀ (m : Module) (fields : FieldsT) tc pc psl s,
      (plot_field_propagation m fields tc pc psl true none s).map Prod.snd =
        some []) ∧
    (∀ (m : Module) (fields : FieldsT) (ls : Option ℚ) s,
      (plot_field_propagation m fields none none none true ls s).map
          (fun r => r.1.simulation_patches_rgba) =
        some (s.simulation_patches_rgba ++
          ((List.enumFrom 0 m.fill_pattern).flatMap fun ip =>
            (List.range ip.2.length).map (wvgColor m fields ip.1)))) ∧
    (∀ (m : Module) (fields : FieldsT) (t f : Nat → Nat → ℚ) (ls : Option ℚ) s,
      (plot_field_propagation m fields (some t) (some f) none true ls s).map
          (fun r => r.1.simulation_patches_rgba) =
        some (s.simulation_patches_rgba ++
          ((m.valid_mesh_points.map fun point => Rgba.thetaA (t point.1 point.2)) ++
           (m.valid_mesh_points.map fun point => Rgba.phiA (f point.1 point.2)) ++
           ((List.enumFrom 0 m.fill_pattern).flatMap fun ip =>
             (List.range ip.2.length).map (wvgColor m fields ip.1))))) ∧
    (∀ (m : Module) (fields : FieldsT) (f : Nat → Nat → ℚ) (g : Nat → ℚ)
        (ls : Option ℚ) s,
      (plot_field_propagation m fields none (some f) (some g) true ls s).map
          (fun r => r.1.simulation_patches_rgba) =
        some (s.simulation_patches_rgba ++
          (((List.range m.num_ports).map fun idx => Rgba.gammaA (g idx)) ++
           (m.valid_mesh_points.map fun point => Rgba.phiA (f point.1 point.2)) ++
           ((List.enumFrom 0 m.fill_pattern).flatMap fun ip =>
             (List.range ip.2.length).map (wvgColor m fields ip.1))))) ∧
    (∀ (m : Module) (fields : FieldsT) (t : Nat → Nat → ℚ) (g : Nat → ℚ)
        (ls : Option ℚ) s,
      (plot_field_propagation m fields (some t) none (some g) true ls s).map
          (fun r => r.1.simulation_patches_rgba) =
        some (s.simulation_patches_rgba ++
          (((List.range m.num_ports).map fun idx => Rgba.gammaA (g idx)) ++
           (m.valid_mesh_points.map fun point => Rgba.thetaA (t point.1 point.2)) ++
           ((List.enumFrom 0 m.fill_pattern).flatMap fun ip =>
             (List.range ip.2.length).map (wvgColor m fields ip.1))))) ∧
    (∀ (m : Module) (fields : FieldsT) t f g (ls : Option ℚ) s,
      s.plotted_simulated_fields = true →
      (plot_field_propagation m fields (some t) (some f) (some g) false ls
          s).isSome = true) ∧
    (∀ (m : Module) (fields : FieldsT) tc pc (ls : Option ℚ) s,
      s.plotted_simulated_fields = true → 0 < m.num_ports →
      plot_field_propagation m fields tc pc none false ls s = none) ∧
    (∀ (m : Module) (fields : FieldsT) pc g (ls : Option ℚ) s,
      s.plotted_simulated_fields = true → m.valid_mesh_points ≠ [] →
      plot_field_propagation m fields none pc (some g) false ls s = none) ∧
    (∀ (m : Module) (fields : FieldsT) (t : Nat → Nat → ℚ) (g : Nat → ℚ)
        (ls : Option ℚ) s,
      s.plotted_simulated_fields = true → m.valid_mesh_points ≠ [] →
      plot_field_propagation m fields (some t) none (some g) false ls s =
        none) := by
  refine ⟨?_, ?_, ?_, ?_, ?_, ?_, ?_, ?_, ?_, ?_⟩
  · intro m fields tc pc psl ls s
    rw [plot_field_propagation]
    simp
  · intro m fields tc pc psl s
    rw [plot_field_propagation]
    rcases tc with _ | t <;> rcases pc with _ | p <;> rcases psl with _ | g2 <;>
      simp [_add_phase_shift_layer, _add_simulated_theta_phase_shifts,
        _add_simulated_phi_phase_shifts]
  · intro m fields ls s
    rw [plot_field_propagation]
    simp [_add_phase_shift_layer, _add_simulated_theta_phase_shifts,
      _add_simulated_phi_phase_shifts, construct_spec]
  · intro m fields t f ls s
    rw [plot_field_propagation]
    simp [_add_phase_shift_layer, _add_simulated_theta_phase_shifts,
      _add_simulated_phi_phase_shifts, construct_spec, List.append_assoc]
  · intro m fields f g ls s
    rw [plot_field_propagation]
    simp [_add_phase_shift_layer, _add_simulated_theta_phase_shifts,
      _add_simulated_phi_phase_shifts, construct_spec, List.append_assoc]
  · intro m fields t g ls s
    rw [plot_field_propagation]
    simp [_add_phase_shift_layer, _add_simulated_theta_phase_shifts,
      _add_simulated_phi_phase_shifts, construct_spec, List.append_assoc]
  · intro m fields t f g ls s hp
    rw [incremental_spec m fields t f g ls s hp]
    rfl
  · intro m fields tc pc ls s hp hn
    obtain ⟨k, hk⟩ : ∃ k, m.num_ports = k + 1 := ⟨m.num_ports - 1, by omega⟩
    rw [plot_field_propagation, hp,
      if_neg (show ¬((!true || false) = true) by decide), hk,
      List.range_succ_eq_map, mapM_option_none_cons _ _ _ rfl]
    rfl
  · intro m fields pc g ls s hp hn
    obtain ⟨q, tl, hq⟩ : ∃ q tl, m.valid_mesh_points = q :: tl := by
      cases h : m.valid_mesh_points with
      | nil => exact absurd h hn
      | cons q tl => exact ⟨q, tl, rfl⟩
    rw [plot_field_propagation, hp,
      if_neg (show ¬((!true || false) = true) by decide), hq]
    simp only [Option.map_some']
    rw [mapM_option_some, mapM_option_none_cons _ _ _ rfl]
    rfl
  · intro m fields t g ls s hp hn
    obtain ⟨q, tl, hq⟩ : ∃ q tl, m.valid_mesh_points = q :: tl := by
      cases h : m.valid_mesh_points with
      | nil => exact absurd h hn
      | cons q tl => exact ⟨q, tl, rfl⟩
    rw [plot_field_propagation, hp,
      if_neg (show ¬((!true || false) = true) by decide), hq]
    simp only [Option.map_some', Option.map_none']
    rw [mapM_option_some, mapM_option_some, mapM_option_none_cons _ _ _ rfl]
    rfl

/-- Witness for C8 amended: a full build with everything omitted succeeds,
an incremental call without `phase_shift_layer` on a one-port module
errors, and an incremental call without `phi_checkerboard` on a module
with a valid mesh position errors. -/
theorem c8_optional_arguments_witness :
    (plot_field_propagation ⟨1, [], [[0]]⟩ ⟨1, 1, fun _ _ => (0, 0)⟩
        none none none true none initState).isSome = true ∧
    plot_field_propagation ⟨1, [], [[0]]⟩ ⟨1, 1, fun _ _ => (0, 0)⟩
        none none none false none ⟨true, [], [], 1⟩ = none ∧
    plot_field_propagation ⟨1, [(0, 0)], [[0]]⟩ ⟨1, 1, fun _ _ => (0, 0)⟩
        (some fun _ _ => 0) none (some fun _ => 0) false none
        ⟨true, [], [], 1⟩ = none :=
  ⟨c8_optional_arguments.1 ⟨1, [], [[0]]⟩ ⟨1, 1, fun _ _ => (0, 0)⟩
      none none none none initState,
   c8_optional_arguments.2.2.2.2.2.2.2.1 ⟨1, [], [[0]]⟩
      ⟨1, 1, fun _ _ => (0, 0)⟩ none none none ⟨true, [], [], 1⟩ rfl
      (by norm_num),
   c8_optional_arguments.2.2.2.2.2.2.2.2.2 ⟨1, [(0, 0)], [[0]]⟩
      ⟨1, 1, fun _ _ => (0, 0)⟩ (fun _ _ => 0) (fun _ => 0) none
      ⟨true, [], [], 1⟩ rfl (by norm_num)⟩

/-! ## Section 4.4: animation mode -/

/-- A 3D complex field tensor with shape `(s0, s1, s2)`, indexed
`fields[layer, port, input]`; `s0 = fields.shape[0]` is the number of
per-layer snapshots iterated by the animation. -/
structure Fields3 where
  s0 : Nat
  s1 : Nat
  s2 : Nat
  entry : Nat → Nat → Nat → ℚ × ℚ

/-- Embeds the tensor built by `plot_to_layer` (py:243-244) for
`layer < s0`:
`np.hstack([fields[:layer, :, input].T, np.zeros((s2, s0 - layer - 1))])`.
It needs `s1 = s2` for the horizontal stack (all call sites satisfy this);
column `c < layer` holds `fields[c, r, input]`, all later columns are
zero, and there are `s0 - 1` columns in total. -/
def plot_to_layer_fields (fields : Fields3) (input layer : Nat) : FieldsT :=
  { rows := fields.s1
    cols := layer + (fields.s0 - layer - 1)
    entry := fun r c => if c < layer then fields.entry c r input else (0, 0) }

/-- The extension-to-backend table (py:255-258). -/
def filetype_dict (movie_fileext : String) : Option String :=
  if movie_fileext = "gif" then some "imagemagick"
  else if movie_fileext = "mp4" then some "ffmpeg"
  else none

/-- Embeds `animate_field_propagation` (py:228-273) at the level the claims
address: resolve the input port (default `num_ports // 2`), gate on the
container extension before the writer is created (an unsupported extension
raises, so zero frames are produced), then for each
`layer in range(fields.shape[0])` invoke the frame renderer with
`replot = (layer == 0)` on the layer-sliced tensor and grab one video
frame.  The result carries the backend name and, per grabbed frame, the
renderer invocation (replot flag, 2D tensor). -/
def animate_field_propagation (m : Module) (fields : Fields3)
    (input_to_propagate : Option Nat) (movie_fileext : String) :
    Except String (String × List (Bool × FieldsT)) :=
  let input := input_to_propagate.getD (m.num_ports / 2)
  match filetype_dict movie_fileext with
  | none => Except.error "Must specify either mp4 or gif (mp4 highly recommended)."
  | some backend =>
      Except.ok (backend, (List.range fields.s0).map fun layer =>
        (layer == 0, plot_to_layer_fields fields input layer))

/-- C3 counterexample: with a 2-snapshot all-ones field tensor, the frame
for layer 0 is rendered from a tensor whose column 0 is zero even though
the field's layer-0 entry for the chosen input is 1: the tensor exposes
the layers `[0, layer)` — none at all at layer 0 — not `[0, layer]`. -/
theorem c3_counterexample :
    animate_field_propagation ⟨1, [], [[0]]⟩ ⟨2, 1, 1, fun _ _ _ => (1, 0)⟩
        (some 0) "mp4" =
      Except.ok ("ffmpeg",
        [(true, plot_to_layer_fields ⟨2, 1, 1, fun _ _ _ => (1, 0)⟩ 0 0),
         (false, plot_to_layer_fields ⟨2, 1, 1, fun _ _ _ => (1, 0)⟩ 0 1)]) ∧
    (plot_to_layer_fields ⟨2, 1, 1, fun _ _ _ => (1, 0)⟩ 0 0).entry 0 0 =
      (0, 0) ∧
    (⟨2, 1, 1, fun _ _ _ => (1, 0)⟩ : Fields3).entry 0 0 0 = (1, 0) :=
  ⟨rfl, rfl, rfl⟩

/-- C3 amended: the animation iterates layers `0..fields.shape[0]-1`,
producing exactly one video frame per layer (so 5 snapshots with "mp4"
give exactly 5 frames), calls the renderer with replot true iff
`layer == 0`, and the frame-`layer` tensor has `shape[0] - 1` columns of
which the first `layer` expose the chosen input's propagated field — i.e.
the half-open range `[0, layer)` — and all columns from `layer` on are
zero. -/
theorem c3_animation_frames (m : Module) (fields : Fields3)
    (input_to_propagate : Option Nat) (_hshape : fields.s1 = fields.s2) :
    ∃ frames,
      animate_field_propagation m fields input_to_propagate "mp4" =
        Except.ok ("ffmpeg", frames) ∧
      frames.length = fields.s0 ∧
      ∀ layer, layer < fields.s0 →
        ∃ T, frames[layer]? = some ((layer == 0 : Bool), T) ∧
          T.rows = fields.s1 ∧
          T.cols = fields.s0 - 1 ∧
          (∀ r c, c < layer →
            T.entry r c =
              fields.entry c r (input_to_propagate.getD (m.num_ports / 2))) ∧
          (∀ r c, layer ≤ c → T.entry r c = (0, 0)) := by
  refine ⟨_, rfl, by simp, ?_⟩
  intro layer hl
  refine ⟨plot_to_layer_fields fields
    (input_to_propagate.getD (m.num_ports / 2)) layer, ?_, rfl, ?_, ?_, ?_⟩
  · simp [List.getElem?_map, List.getElem?_range hl]
  · show layer + (fields.s0 - layer - 1) = fields.s0 - 1
    omega
  · intro r c hc
    show (if c < layer then _ else _) = _
    rw [if_pos hc]
  · intro r c hc
    show (if c < layer then _ else _) = _
    rw [if_neg (by omega)]

/-- Witness for C3 amended: 5 snapshots, "mp4", exactly 5 frames. -/
theorem c3_animation_frames_witness :
    ∃ frames,
      animate_field_propagation ⟨1, [], [[0]]⟩ ⟨5, 1, 1, fun _ _ _ => (0, 0)⟩
          none "mp4" =
        Except.ok ("ffmpeg", frames) ∧ frames.length = 5 :=
  (c3_animation_frames ⟨1, [], [[0]]⟩ ⟨5, 1, 1, fun _ _ _ => (0, 0)⟩ none
    rfl).elim fun frames h => ⟨frames, h.1, h.2.1⟩

/-- C7: the container extension is gated on the enumerated set: "gif" maps
to the imagemagick backend, "mp4" to the ffmpeg backend, and any other
extension (e.g. "avi") yields the configuration error before the writer
exists, with zero frames and no partial output. -/
theorem c7_container_extensions (m : Module) (fields : Fields3)
    (input_to_propagate : Option Nat) :
    (∃ frames, animate_field_propagation m fields input_to_propagate "gif" =
        Except.ok ("imagemagick", frames)) ∧
    (∃ frames, animate_field_propagation m fields input_to_propagate "mp4" =
        Except.ok ("ffmpeg", frames)) ∧
    (∀ movie_fileext, movie_fileext ≠ "gif" → movie_fileext ≠ "mp4" →
      animate_field_propagation m fields input_to_propagate movie_fileext =
        Except.error "Must specify either mp4 or gif (mp4 highly recommended).") := by
  refine ⟨⟨_, rfl⟩, ⟨_, rfl⟩, ?_⟩
  intro ext h1 h2
  rw [animate_field_propagation, filetype_dict, if_neg h1, if_neg h2]

/-- Witness for C7 at "avi". -/
theorem c7_container_extensions_witness :
    animate_field_propagation ⟨1, [], [[0]]⟩ ⟨1, 1, 1, fun _ _ _ => (0, 0)⟩
        none "avi" =
      Except.error "Must specify either mp4 or gif (mp4 highly recommended)." :=
  (c7_container_extensions ⟨1, [], [[0]]⟩ ⟨1, 1, 1, fun _ _ _ => (0, 0)⟩
    none).2.2 "avi" (by decide) (by decide)

/-- Witness for C2 at a two-port module with two two-polygon paths. -/
theorem c2_recolor_invariant_witness :
    ∃ s1 lb1 s2 s3,
      plot_field_propagation ⟨2, [(0, 0)], [[0, 1], [2, 3]]⟩
          ⟨2, 2, fun _ _ => (1, 0)⟩ (some fun _ _ => 1) (some fun _ _ => 1)
          (some fun _ => 1) true none initState = some (s1, lb1) ∧
      plot_field_propagation ⟨2, [(0, 0)], [[0, 1], [2, 3]]⟩
          ⟨2, 2, fun _ _ => (1, 0)⟩ (some fun _ _ => 1) (some fun _ _ => 1)
          (some fun _ => 1) false none s1 = some (s2, []) ∧
      plot_field_propagation ⟨2, [(0, 0)], [[0, 1], [2, 3]]⟩
          ⟨2, 2, fun _ _ => (1, 0)⟩ (some fun _ _ => 1) (some fun _ _ => 1)
          (some fun _ => 1) false none s2 = some (s3, []) ∧
      s2.simulation_patches_rgba = s1.simulation_patches_rgba ∧
      s3.simulation_patches_rgba = s2.simulation_patches_rgba := by
  obtain ⟨s1, lb1, s2, s3, h1, h2, h3, _, h5, h6⟩ :=
    c2_recolor_invariant ⟨2, [(0, 0)], [[0, 1], [2, 3]]⟩
      ⟨2, 2, fun _ _ => (1, 0)⟩ (fun _ _ => 1) (fun _ _ => 1) (fun _ => 1)
      none none rfl (by decide)
  exact ⟨s1, lb1, s2, s3, h1, h2, h3, h5, h6⟩

/-- Witness instantiating C9 on a one-port, one-path module. -/
theorem c9_waveguide_colors_witness :
    (_construct_mesh_from_fields ⟨1, [], [[7]]⟩ ⟨1, 1, fun _ _ => (1, 0)⟩
        initState).simulation_patches_rgba =
      [] ++ (([[7]] : List (List Nat)).enum.flatMap fun ip =>
        (List.range ip.2.length).map fun (k : Nat) =>
          Rgba.hotAbs (fieldAt ⟨1, 1, fun _ _ => (1, 0)⟩
            (((1 : Nat) : Int) - 1 - (ip.1 : Int))
            (clampLayer (_mzi_poly_idx_to_layer_num (k : Int)) 1))) :=
  (c9_waveguide_colors ⟨1, [], [[7]]⟩ ⟨1, 1, fun _ _ => (1, 0)⟩ initState).2

end PhoxSim
